import Mathlib

/-!
Verification of the feed-acquisition and normalization pipeline of
dhamsey3/poetry (src/fetch.py) against its natural-language specification.

The Python source is shallowly embedded: dict-shaped records become
structures of optional fields, calls into external libraries
(requests, feedparser, dateutil, BeautifulSoup, Playwright) are modelled
by abstract inputs describing the outcome the library reports, and
Python exceptions become Option/Except values.
-/

namespace Fetch

/--
Model of a Python datetime value as produced by dateutil.parser.parse
and by datetime.min.replace(tzinfo=timezone.utc) in fetch.py.

A datetime is either timezone naive or timezone aware (field aware),
and carries a timestamp ts in abstract ticks since datetime.min
(so ts = 0 with aware = true is datetime.min.replace(tzinfo=timezone.utc),
the sort key that normalize_entries, line 160, substitutes for undated
records).  Python datetimes are bounded below by datetime.min, hence
ts : Nat.  Two naive datetimes compare by their field tuple and two
aware datetimes compare by their UTC instant; both are the order on ts.
A naive and an aware datetime do not compare: Python raises TypeError,
which the embedding of the sort makes explicit.
-/
structure PyDateTime where
  aware : Bool
  ts : Nat
deriving DecidableEq, Repr

/--
Abstract value of a truthy date-field string together with the outcome
dateutil.parser.parse has on it: it parses to a naive datetime, parses
to an aware datetime, or raises (unparseable).
-/
inductive DateFieldVal where
  | parsesNaive (ts : Nat)
  | parsesAware (ts : Nat)
  | unparseable
deriving DecidableEq, Repr

/-- Outcome of dparser.parse on a truthy date field (line 153 of fetch.py):
some datetime on success, none when the library raises. -/
def dparse : DateFieldVal → Option PyDateTime
  | DateFieldVal.parsesNaive t => some (PyDateTime.mk false t)
  | DateFieldVal.parsesAware t => some (PyDateTime.mk true t)
  | DateFieldVal.unparseable => none

/--
An input record as consumed by normalize_entries (lines 145-161):
a dict with the keys the function reads.  none models both a missing key
and a falsy value where the source tests truthiness (the date fields at
line 152 and the content fallback at line 156).  The content field holds
the value content[0].get("value", "") when e.get("content") is truthy and
that lookup succeeds; none covers an absent or falsy content key and the
swallowed exception of lines 157-158.
-/
structure Entry where
  title : Option String := none
  link : Option String := none
  published : Option DateFieldVal := none
  updated : Option DateFieldVal := none
  created : Option DateFieldVal := none
  datePublished : Option DateFieldVal := none
  summary : Option String := none
  description : Option String := none
  content : Option String := none
deriving DecidableEq, Repr

/-- The loop of lines 150-154: the first truthy date field that
dparser.parse accepts gives the datetime; parse failures fall through to
the next candidate field. -/
def pickDate : List (Option DateFieldVal) → Option PyDateTime
  | [] => none
  | none :: rest => pickDate rest
  | some v :: rest =>
    match dparse v with
    | some dt => some dt
    | none => pickDate rest

/-- Candidate date fields in the order of line 150:
published, updated, created, datePublished. -/
def entryDate (e : Entry) : Option PyDateTime :=
  pickDate [e.published, e.updated, e.created, e.datePublished]

/--
Model of to_iso (lines 139-143) on a datetime argument: a naive datetime
gets tzinfo utc attached (same fields), an aware one is converted to UTC;
either way the rendered ISO string is determined by the ts component in
our encoding, so the string is modelled by that Nat.
-/
def to_iso (dt : PyDateTime) : Nat := dt.ts

/-- An output record of normalize_entries (line 159): the dict with keys
title, link, date, date_iso, summary.  date_iso is the modelled ISO
string, none standing for the empty string written when date is None. -/
structure NormRecord where
  title : String
  link : Option String
  date : Option PyDateTime
  date_iso : Option Nat
  summary : String
deriving DecidableEq, Repr

/-- The per-record normalization of lines 147-159. -/
def normalizeOne (e : Entry) : NormRecord :=
  let dt := entryDate e
  let s0 := e.summary.getD (e.description.getD "")
  let s := if s0 = "" then e.content.getD s0 else s0
  { title := e.title.getD "Untitled"
    link := e.link
    date := dt
    date_iso := dt.map to_iso
    summary := s }

/-- The sort key of line 160: the parsed date, or
datetime.min.replace(tzinfo=timezone.utc) for an undated record. -/
def sortKey (n : NormRecord) : PyDateTime :=
  n.date.getD (PyDateTime.mk true 0)

/-- Comparison used by the descending sort of line 160, as a relation:
a precedes b when the key of a is at least the key of b.  It is only
consulted on lists whose keys share one awareness flag, where Python
datetime comparison is the order on ts. -/
def keyGE (a b : NormRecord) : Prop :=
  (sortKey b).ts ≤ (sortKey a).ts

instance : DecidableRel keyGE := fun a b => Nat.decLe (sortKey b).ts (sortKey a).ts

instance : IsTotal NormRecord keyGE :=
  ⟨fun a b => Nat.le_total (sortKey b).ts (sortKey a).ts⟩

instance : IsTrans NormRecord keyGE :=
  ⟨fun _ _ _ hab hbc => Nat.le_trans hbc hab⟩

/--
True when the sort keys contain both a naive and an aware datetime.
Python list.sort raises TypeError on the first comparison of a naive
with an aware datetime; timsort compares adjacent elements while
detecting runs, so the sort of line 160 raises exactly when both kinds
of key are present, and completes otherwise.
-/
def mixedAwareness (l : List NormRecord) : Bool :=
  (l.map fun n => (sortKey n).aware).contains true &&
    (l.map fun n => (sortKey n).aware).contains false

/--
normalize_entries (lines 145-161): map each record through the
normalization of lines 147-159, sort by date descending with undated
records keyed as datetime.min (line 160; Python sort with reverse=True
is stable, which a stable insertion sort with the reflexive descending
relation keyGE reproduces), and truncate to limit (line 161; limit is the
configured item bound, a natural number, for which Python slicing is
take).  none models the TypeError of the sort on keys of mixed
awareness.
-/
def normalize_entries (entries : List Entry) (limit : Nat) : Option (List NormRecord) :=
  let norm := entries.map normalizeOne
  if mixedAwareness norm then none
  else some ((List.insertionSort keyGE norm).take limit)

/--
The Python dict written at line 159 carries exactly the keys title, link,
date, date_iso and summary.  When such a dict is fed back into
normalize_entries, the keys the function reads are: title and link
(present), summary (present), and the date candidates published, updated,
created, datePublished together with description and content (all
absent).  refeed is that dict viewed as an input record.
-/
def NormRecord.refeed (n : NormRecord) : Entry :=
  { title := some n.title
    link := n.link
    summary := some n.summary }

/-- A normalized record with its date and date_iso fields reset to the
undated values None and the empty string. -/
def NormRecord.clearDate (n : NormRecord) : NormRecord :=
  { n with date := none, date_iso := none }

/--
Error value raised at line 50 of fetch.py: the RuntimeError message names
the last HTTP status seen (None when no request was made) and the URL.
-/
structure FetchFailure where
  lastStatus : Option Nat
  url : String
deriving DecidableEq, Repr

/-- Statuses the retry loop of lines 42-49 treats as transient (line 47). -/
def retryStatus (s : Nat) : Bool := s == 403 || s == 429

/--
One unrolling step of the retry loop of http_get (lines 42-49).  resp
gives the status code of the i-th request, jitter the value random.random
returns before the i-th retry sleep.  The triple returned is: the result
(the index of the successful request, or the failure value of line 50),
the list of delays slept (line 48: time.sleep(1.2 + random.random())),
and the number of requests issued.  last carries the last_status variable
of line 41.
-/
def http_get_aux (resp : Nat → Nat) (jitter : Nat → ℚ) (url : String) :
    Nat → Nat → Option Nat → Except FetchFailure Nat × List ℚ × Nat
  | 0, i, last => (Except.error ⟨last, url⟩, [], i)
  | fuel + 1, i, _ =>
    let s := resp i
    if s = 200 then (Except.ok i, [], i + 1)
    else if retryStatus s then
      let r := http_get_aux resp jitter url fuel (i + 1) (some s)
      (r.1, (6 / 5 + jitter i) :: r.2.1, r.2.2)
    else (Except.error ⟨some s, url⟩, [], i + 1)

/-- http_get (lines 32-50): at most 3 requests (range(3) at line 42),
returning on 200, sleeping 1.2 plus jitter then retrying on 403 or 429,
breaking on any other status, and failing with the last status and the
URL once the loop is left. -/
def http_get (resp : Nat → Nat) (jitter : Nat → ℚ) (url : String) :
    Except FetchFailure Nat × List ℚ × Nat :=
  http_get_aux resp jitter url 3 0 none

/--
Result reported by feedparser.parse at line 135: the bozo flag (the
underlying parser saw malformed input) and the entry list.  fetch.py
treats this value abstractly, so the embedding takes it as input.
-/
structure FeedParseResult where
  bozo : Bool
  entries : List Entry
deriving DecidableEq, Repr

/-- parse_feed_bytes (lines 134-137): raise when the bozo flag is set and
no entries were produced, otherwise hand back the parsed result. -/
def parse_feed_bytes (d : FeedParseResult) : Except String FeedParseResult :=
  if d.bozo && d.entries.isEmpty then Except.error "Feed parse error"
  else Except.ok d

/-- Message of the RuntimeError raised at line 369 when no acquisition
strategy produced records. -/
def noItemsMessage : String := "No items found from RSS or HTML fallback."

/-- Outcome of one run of the script: process failure, the rendered index
page written with the given items, or the soft-fail placeholder page. -/
inductive TopOutcome where
  | exitFailure (msg : String)
  | wroteIndex (items : List NormRecord)
  | wrotePlaceholder (msg : String)
deriving DecidableEq, Repr

/-- Tail of main (lines 367-371): with zero items and soft fail off the
RuntimeError of line 369 is raised, otherwise render_index writes the
output page with the acquired items. -/
def mainFinalize (softFail : Bool) (items : List NormRecord) :
    Except String (List NormRecord) :=
  if items.isEmpty && !softFail then Except.error noItemsMessage
  else Except.ok items

/-- Top-level handler (lines 373-387): an exception escaping main is
turned into the placeholder page when SOFT_FAIL is set and into process
exit code 1 otherwise. -/
def topLevel (softFail : Bool) (r : Except String (List NormRecord)) : TopOutcome :=
  match r with
  | Except.ok items => TopOutcome.wroteIndex items
  | Except.error e => if softFail then TopOutcome.wrotePlaceholder e else TopOutcome.exitFailure e

/-- The run of the script on a given soft-fail setting once the cascade
has produced its final item list. -/
def runScript (softFail : Bool) (items : List NormRecord) : TopOutcome :=
  topLevel softFail (mainFinalize softFail items)

/-- Bool test that needle occurs as a leading segment of hay, over any
type with decidable equality. -/
def leadsList {α : Type} [DecidableEq α] : List α → List α → Bool
  | [], _ => true
  | _ :: _, [] => false
  | a :: as, b :: bs => a = b && leadsList as bs

/-- Bool test that needle occurs as a contiguous segment of hay, the
Python in operator on strings and bytes. -/
def hasSegment {α : Type} [DecidableEq α] (needle : List α) : List α → Bool
  | [] => needle.isEmpty
  | b :: bs => leadsList needle (b :: bs) || hasSegment needle bs

/-- Byte-wise ASCII lowercasing, the bytes.lower method. -/
def bytesLower (l : List Nat) : List Nat :=
  l.map fun b => if 65 ≤ b ∧ b ≤ 90 then b + 32 else b

/-- The bytes.lstrip method with its default ASCII whitespace set. -/
def bytesLStrip : List Nat → List Nat
  | [] => []
  | b :: t =>
    if b = 32 ∨ b = 9 ∨ b = 10 ∨ b = 13 ∨ b = 11 ∨ b = 12 then bytesLStrip t
    else b :: t

/-- ASCII bytes of the lowercased doctype marker checked at line 27. -/
def doctypeBytes : List Nat := [60, 33, 100, 111, 99, 116, 121, 112, 101, 32, 104, 116, 109, 108]

/-- ASCII bytes of the lowercased html tag marker checked at line 27. -/
def htmlTagBytes : List Nat := [60, 104, 116, 109, 108]

/-- ASCII bytes of the substring html searched in the content type at line 24. -/
def htmlBytes : List Nat := [104, 116, 109, 108]

/-- is_html_payload (lines 23-27): the content type (a byte or character
string, modelled as its bytes) decides when it is truthy and mentions
html after lowercasing; otherwise the first 200 content bytes are left
stripped, lowercased and checked against the doctype and html tag
markers. -/
def is_html_payload (content : List Nat) (content_type : List Nat) : Bool :=
  if !content_type.isEmpty && hasSegment htmlBytes (bytesLower content_type) then true
  else
    let head := bytesLower (bytesLStrip (content.take 200))
    leadsList doctypeBytes head || leadsList htmlTagBytes head

/-- An item dict built by the HTML extractors (lines 177-180, 182-185,
213): title, link, datePublished and summary strings.  The link value of
a jsonld item may be empty when the payload had no url (urljoin of the
empty string); the or at line 190 turns a missing link into the empty
string as well. -/
structure RawItem where
  title : String
  link : String
  datePublished : String
  summary : String
deriving DecidableEq, Repr

/-- The dedup loop of parse_jsonld_posts (lines 188-192): keep an item
when its link is nonempty and not yet seen. -/
def dedupNonemptyLinks (seen : List String) : List RawItem → List RawItem
  | [] => []
  | it :: rest =>
    if it.link != "" && !seen.contains it.link then
      it :: dedupNonemptyLinks (it.link :: seen) rest
    else dedupNonemptyLinks seen rest

/-- The dedup loop of parse_archive_links (lines 214-218): keep an item
when its link is not yet seen. -/
def dedupLinks (seen : List String) : List RawItem → List RawItem
  | [] => []
  | it :: rest =>
    if seen.contains it.link then dedupLinks seen rest
    else it :: dedupLinks (it.link :: seen) rest

/-- parse_jsonld_posts (lines 163-192).  The walk over the script tags
(lines 165-187) goes through BeautifulSoup and json.loads, so the
embedding takes its pre-dedup item list as input and applies the final
dedup pass of lines 188-192, which is what the claim about the function
output constrains; quantifying over every item list covers every walk
outcome. -/
def parse_jsonld_posts (walkItems : List RawItem) : List RawItem :=
  dedupNonemptyLinks [] walkItems

/-- parse_archive_links (lines 194-218).  The selector scan of lines
196-213 goes through BeautifulSoup, so the embedding takes its pre-dedup
item list as input and applies the final dedup pass of lines 214-218. -/
def parse_archive_links (anchorItems : List RawItem) : List RawItem :=
  dedupLinks [] anchorItems

/-- A link element of an HTML document head: its rel, type and href
attribute strings. -/
structure LinkEl where
  rel : String
  typeAttr : String
  href : String
deriving DecidableEq, Repr

/-- Bool test that sub occurs as a contiguous substring of s. -/
def strHasSub (sub s : String) : Bool := hasSegment sub.data s.data

/-- Bool test that s ends with the given suffix. -/
def strEndsIn (suffix s : String) : Bool := leadsList suffix.data.reverse s.data.reverse

/--
Modelled from the spec: the Feed Discoverer of section 4.4 is absent from
the source tree (src/fetch.py never scans link elements), so its match
predicate follows the words of the spec: rel containing alternate, and a
type containing rss, atom, or ending in xml.
-/
def feedLinkMatches (l : LinkEl) : Bool :=
  strHasSub "alternate" l.rel &&
    (strHasSub "rss" l.typeAttr || strHasSub "atom" l.typeAttr || strEndsIn "xml" l.typeAttr)

/--
Modelled from the spec: resolution of an href against the base URL
(the urljoin step of section 4.4): an href that already carries a scheme
separator is absolute and kept, any other is joined to the base.
-/
def resolveAgainst (base href : String) : String :=
  if strHasSub "://" href then href else base ++ href

/--
Modelled from the spec, section 4.4: discoverFeed scans the link elements
of the document in order and resolves the href of the first match against
the base URL; nothing when no element matches.
-/
def discoverFeed (links : List LinkEl) (base : String) : Option String :=
  match links with
  | [] => none
  | l :: rest => if feedLinkMatches l then some (resolveAgainst base l.href) else discoverFeed rest base

/-- The acquisition states of the orchestrator state machine of
section 4.8 of the spec. -/
inductive Stage where
  | tryDirectFeed
  | tryDiscoveredFeed
  | tryRenderedFeedPage
  | tryArchiveApiCapture
  | tryArchiveDomScrape
deriving DecidableEq, Repr

/-- Outcome of the direct feed fetch: a non-HTML payload parsed into
entries, an HTML page carrying the given link elements, or a failed
fetch. -/
inductive DirectResult where
  | feedEntries (es : List Entry)
  | htmlPage (links : List LinkEl)
  | fetchFailed
deriving DecidableEq, Repr

/--
Modelled from the spec: the environment one cascade run observes.
roundTrip u gives the entry list when fetching u yields a non-HTML,
parseable feed, none when that round trip fails; renderedLinks are the
link elements of the rendered page, archiveApiItems the records captured
from archive API responses, and extractorItems the result of the HTML
extractor cascade of section 4.6.
-/
structure OrchEnv where
  direct : DirectResult
  baseUrl : String
  roundTrip : String → Option (List Entry)
  renderingEnabled : Bool
  renderedLinks : List LinkEl
  archiveApiItems : List Entry
  extractorItems : List Entry

/-- Terminal outcome of the cascade of section 4.8. -/
inductive RunOutcome where
  | done (es : List Entry)
  | failedNoItems
  | failedFetch
deriving DecidableEq, Repr

/-- Modelled from the spec: the TryArchiveApiCapture and
TryArchiveDomScrape states; the HTML extractors run only in the latter. -/
def archiveStages (env : OrchEnv) (trace : List Stage) : RunOutcome × List Stage :=
  let trace1 := trace ++ [Stage.tryArchiveApiCapture]
  if env.archiveApiItems.isEmpty then
    let trace2 := trace1 ++ [Stage.tryArchiveDomScrape]
    if env.extractorItems.isEmpty then (RunOutcome.failedNoItems, trace2)
    else (RunOutcome.done env.extractorItems, trace2)
  else (RunOutcome.done env.archiveApiItems, trace1)

/-- Modelled from the spec: the gate before the rendered states (no HTML
fallback without the rendering capability) followed by TryRenderedFeedPage,
which repeats feed autodiscovery on the rendered HTML. -/
def renderedStages (env : OrchEnv) (trace : List Stage) : RunOutcome × List Stage :=
  if !env.renderingEnabled then (RunOutcome.failedFetch, trace)
  else
    let trace1 := trace ++ [Stage.tryRenderedFeedPage]
    match discoverFeed env.renderedLinks env.baseUrl with
    | some u =>
      match env.roundTrip u with
      | some es => (RunOutcome.done es, trace1)
      | none => archiveStages env trace1
    | none => archiveStages env trace1

/-- Modelled from the spec: the TryDiscoveredFeed state, scanning the
HTML of the direct fetch for a declared feed link and round-tripping it. -/
def discoveredStage (env : OrchEnv) (links : List LinkEl) (trace : List Stage) :
    RunOutcome × List Stage :=
  let trace1 := trace ++ [Stage.tryDiscoveredFeed]
  match discoverFeed links env.baseUrl with
  | some u =>
    match env.roundTrip u with
    | some es => (RunOutcome.done es, trace1)
    | none => renderedStages env trace1
  | none => renderedStages env trace1

/--
Modelled from the spec, section 4.8: the cascade starting at
TryDirectFeed.  A non-HTML payload parsing with entries is terminal; an
HTML payload hands its link elements to TryDiscoveredFeed, and a failed
fetch proceeds there with nothing to scan.
-/
def runCascade (env : OrchEnv) : RunOutcome × List Stage :=
  let trace := [Stage.tryDirectFeed]
  match env.direct with
  | DirectResult.feedEntries es =>
    if es.isEmpty then discoveredStage env [] trace else (RunOutcome.done es, trace)
  | DirectResult.htmlPage links => discoveredStage env links trace
  | DirectResult.fetchFailed => discoveredStage env [] trace

theorem normalize_entries_some_iff (entries : List Entry) (limit : Nat) (out : List NormRecord) :
    normalize_entries entries limit = some out ↔
      mixedAwareness (entries.map normalizeOne) = false ∧
        out = (List.insertionSort keyGE (entries.map normalizeOne)).take limit := by
  unfold normalize_entries
  cases hm : mixedAwareness (entries.map normalizeOne) <;> simp [hm, eq_comm]

theorem insertionSort_all {α : Type} (r : α → α → Prop) [DecidableRel r] :
    ∀ l : List α, (∀ a ∈ l, ∀ b ∈ l, r a b) → List.insertionSort r l = l
  | [], _ => rfl
  | x :: xs, h => by
    have ih := insertionSort_all r xs fun a ha b hb =>
      h a (List.mem_cons_of_mem _ ha) b (List.mem_cons_of_mem _ hb)
    simp only [List.insertionSort, ih]
    cases xs with
    | nil => rfl
    | cons y ys =>
      have hxy : r x y :=
        h x (List.mem_cons_self _ _) y (List.mem_cons_of_mem _ (List.mem_cons_self _ _))
      simp [List.orderedInsert, hxy]

theorem normalizeOne_refeed (n : NormRecord) : normalizeOne n.refeed = n.clearDate := by
  cases n with
  | mk t l d di s =>
    simp [normalizeOne, NormRecord.refeed, NormRecord.clearDate, entryDate, pickDate, ite_self]

theorem mixedAwareness_eq_false_of_undated (l : List NormRecord)
    (h : ∀ n ∈ l, n.date = none) : mixedAwareness l = false := by
  have hc : ((l.map fun n => (sortKey n).aware).contains false) = false := by
    induction l with
    | nil => rfl
    | cons x xs ih =>
      have hx : (sortKey x).aware = true := by
        simp [sortKey, h x (List.mem_cons_self _ _)]
      simp only [List.map_cons, List.contains_cons, hx]
      simpa using ih fun n hn => h n (List.mem_cons_of_mem _ hn)
  unfold mixedAwareness
  rw [hc, Bool.and_false]

/-- Claim C10: normalize_entries is not total: a record whose date string
parses to a timezone-naive datetime next to an undated record makes the
descending sort of line 160 compare a naive with an aware datetime, so
the call raises TypeError instead of returning a list. -/
theorem normalize_entries_mixed_raises :
    normalize_entries [{ datePublished := some (DateFieldVal.parsesNaive 1) }, {}] 25 = none := by
  decide

/-- Counterexample to claim C1: normalize_entries performs no
deduplication: on two undated records with the same link it emits two
records with that link, not exactly one. -/
theorem normalize_entries_no_dedup_cex :
    (((normalize_entries [{ link := some "x" }, { link := some "x" }] 25).getD []).map
        NormRecord.link).count (some "x") = 2 := by
  decide

/-- Claim C1 (amended): normalize_entries does not deduplicate by link;
every input record yields one output record, so when the call returns, the
output length is exactly the minimum of the limit and the input length,
duplicated links included. -/
theorem normalize_entries_length_min (entries : List Entry) (limit : Nat)
    (out : List NormRecord) (h : normalize_entries entries limit = some out) :
    out.length = min limit entries.length := by
  obtain ⟨-, hout⟩ := (normalize_entries_some_iff entries limit out).1 h
  rw [hout, List.length_take, List.length_insertionSort, List.length_map]

/-- Witness for the amended claim C1 at a concrete duplicate-link input. -/
theorem normalize_entries_length_min_witness :
    [normalizeOne { link := some "x" }, normalizeOne { link := some "x" }].length = min 25 2 :=
  normalize_entries_length_min [{ link := some "x" }, { link := some "x" }] 25
    [normalizeOne { link := some "x" }, normalizeOne { link := some "x" }] (by decide)

/-- Counterexample to claim C2: a record whose date string parses exactly
to the minimum timestamp (for example 0001-01-01T00:00:00Z) ties with the
key substituted for undated records, and the stable sort then leaves an
undated record in front of a dated one, so undated records do not always
sort after all dated records. -/
theorem normalize_entries_undated_first_cex :
    (((normalize_entries [{}, { datePublished := some (DateFieldVal.parsesAware 0) }] 25).getD
          []).map NormRecord.date) =
      [none, some (PyDateTime.mk true 0)] := by
  decide

/-- Claim C2 (amended): when normalize_entries returns, the output length
is at most the limit and the output is sorted descending by the key that
substitutes the minimum timestamp for undated records; consequently every
record after an undated one has the minimum key, so undated records sort
after all records whose parsed date is strictly above the minimum
timestamp. -/
theorem normalize_entries_bounded_sorted (entries : List Entry) (limit : Nat)
    (out : List NormRecord) (h : normalize_entries entries limit = some out) :
    out.length ≤ limit ∧
      out.Pairwise fun a b =>
        (sortKey b).ts ≤ (sortKey a).ts ∧ (a.date = none → (sortKey b).ts = 0) := by
  obtain ⟨-, hout⟩ := (normalize_entries_some_iff entries limit out).1 h
  constructor
  · rw [hout, List.length_take]
    exact Nat.min_le_left _ _
  · have hs : List.Sorted keyGE (List.insertionSort keyGE (entries.map normalizeOne)) :=
      List.sorted_insertionSort keyGE _
    have hp : out.Pairwise keyGE := by
      rw [hout]
      exact List.Pairwise.sublist (List.take_sublist _ _) hs
    refine hp.imp fun {a b} hab => ⟨hab, fun hnone => ?_⟩
    have ha : (sortKey a).ts = 0 := by simp [sortKey, hnone]
    have : (sortKey b).ts ≤ (sortKey a).ts := hab
    omega

/-- Witness for the amended claim C2 at a concrete input. -/
theorem normalize_entries_bounded_sorted_witness :
    [normalizeOne ({} : Entry)].length ≤ 3 ∧
      [normalizeOne ({} : Entry)].Pairwise fun a b =>
        (sortKey b).ts ≤ (sortKey a).ts ∧ (a.date = none → (sortKey b).ts = 0) :=
  normalize_entries_bounded_sorted [{}] 3 [normalizeOne {}] (by decide)

/-- Counterexample to claim C8: normalize_entries is not idempotent on
its own output: a dated record comes back from the first call with its
date stored under keys the function never reads, so the second call
returns a different sequence (date None and empty date_iso). -/
theorem normalize_entries_not_idempotent_cex :
    normalize_entries
        (((normalize_entries [{ datePublished := some (DateFieldVal.parsesAware 5) }] 25).getD
            []).map NormRecord.refeed) 25 ≠
      normalize_entries [{ datePublished := some (DateFieldVal.parsesAware 5) }] 25 := by
  decide

/-- Claim C8 (amended): applying normalize_entries a second time to its
own output (with the same limit) returns the same sequence except that
every record comes back with its date and date_iso fields cleared,
because the output stores its date under keys the function does not read;
in particular the second application is the identity when every record
was already undated. -/
theorem normalize_entries_refeed (entries : List Entry) (limit : Nat) (out : List NormRecord)
    (h : normalize_entries entries limit = some out) :
    normalize_entries (out.map NormRecord.refeed) limit = some (out.map NormRecord.clearDate) := by
  obtain ⟨-, hout⟩ := (normalize_entries_some_iff entries limit out).1 h
  have hnorm : (out.map NormRecord.refeed).map normalizeOne = out.map NormRecord.clearDate := by
    rw [List.map_map]
    exact List.map_congr_left fun n _ => normalizeOne_refeed n
  have hundated : ∀ n ∈ out.map NormRecord.clearDate, n.date = none := by
    intro n hn
    obtain ⟨m, -, rfl⟩ := List.mem_map.1 hn
    rfl
  have hlen : out.length ≤ limit := by
    rw [hout, List.length_take]
    exact Nat.min_le_left _ _
  refine (normalize_entries_some_iff _ _ _).2 ⟨?_, ?_⟩
  · rw [hnorm]
    exact mixedAwareness_eq_false_of_undated _ hundated
  · rw [hnorm, insertionSort_all keyGE _ ?_, List.take_of_length_le (by simpa using hlen)]
    intro a ha b hb
    show (sortKey b).ts ≤ (sortKey a).ts
    simp [sortKey, hundated a ha, hundated b hb]

/-- Witness for the amended claim C8 at a concrete dated input. -/
theorem normalize_entries_refeed_witness :
    normalize_entries
        ([normalizeOne { datePublished := some (DateFieldVal.parsesAware 5) }].map
          NormRecord.refeed) 25 =
      some ([normalizeOne { datePublished := some (DateFieldVal.parsesAware 5) }].map
        NormRecord.clearDate) :=
  normalize_entries_refeed [{ datePublished := some (DateFieldVal.parsesAware 5) }] 25
    [normalizeOne { datePublished := some (DateFieldVal.parsesAware 5) }] (by decide)

/-- Claim C3: with every acquisition strategy yielding zero records, the
run fails (exit code 1 with the no-items error) exactly when SOFT_FAIL is
off; with SOFT_FAIL on, main does not raise and still writes the index
page (with an empty item list) instead. -/
theorem runScript_no_items (softFail : Bool) :
    (runScript softFail [] = TopOutcome.exitFailure noItemsMessage ↔ softFail = false) ∧
      (softFail = true → runScript softFail [] = TopOutcome.wroteIndex []) := by
  cases softFail <;> simp [runScript, mainFinalize, topLevel]

/-- Witness for claim C3: with SOFT_FAIL on and zero items the run writes
the index page. -/
theorem runScript_no_items_witness : runScript true [] = TopOutcome.wroteIndex [] :=
  (runScript_no_items true).2 rfl

/-- Claim C5: parse_feed_bytes fails exactly when the underlying parser
reports malformed input (bozo) and produced zero entries; a bozo feed
with at least one entry is accepted and handed back whole. -/
theorem parse_feed_bytes_spec (d : FeedParseResult) :
    (parse_feed_bytes d = Except.error "Feed parse error" ↔ d.bozo = true ∧ d.entries = []) ∧
      (d.entries ≠ [] → parse_feed_bytes d = Except.ok d) := by
  obtain ⟨b, es⟩ := d
  cases b <;> cases es <;> simp [parse_feed_bytes]

/-- Witness for claim C5: a bozo result with one entry is accepted. -/
theorem parse_feed_bytes_spec_witness :
    parse_feed_bytes ⟨true, [{}]⟩ = Except.ok ⟨true, [{}]⟩ :=
  (parse_feed_bytes_spec ⟨true, [{}]⟩).2 (by decide)

/-- Claim C7: is_html_payload is true when the lowercased content type
mentions html, true when the first 200 content bytes, left stripped and
lowercased, start with the doctype or html tag marker, and false
otherwise. -/
theorem is_html_payload_spec (content ctype : List Nat) :
    (hasSegment htmlBytes (bytesLower ctype) = true → is_html_payload content ctype = true) ∧
      ((leadsList doctypeBytes (bytesLower (bytesLStrip (content.take 200))) = true ∨
          leadsList htmlTagBytes (bytesLower (bytesLStrip (content.take 200))) = true) →
        is_html_payload content ctype = true) ∧
      (is_html_payload content ctype = true →
        hasSegment htmlBytes (bytesLower ctype) = true ∨
          leadsList doctypeBytes (bytesLower (bytesLStrip (content.take 200))) = true ∨
          leadsList htmlTagBytes (bytesLower (bytesLStrip (content.take 200))) = true) := by
  refine ⟨fun h => ?_, fun h => ?_, fun h => ?_⟩
  · have hne : ctype.isEmpty = false := by
      cases ctype with
      | nil => simp [bytesLower, hasSegment, htmlBytes] at h
      | cons b t => rfl
    simp [is_html_payload, hne, h]
  · unfold is_html_payload
    split
    · rfl
    · rcases h with h | h <;> simp [h]
  · unfold is_html_payload at h
    by_cases hc : (!ctype.isEmpty && hasSegment htmlBytes (bytesLower ctype)) = true
    · rw [Bool.and_eq_true] at hc
      exact Or.inl hc.2
    · rw [if_neg hc] at h
      rw [Bool.or_eq_true] at h
      rcases h with h | h
      · exact Or.inr (Or.inl h)
      · exact Or.inr (Or.inr h)

/-- Witness for claim C7: an empty body with content type text/HTML is
classified as HTML through the case-insensitive content-type test. -/
theorem is_html_payload_spec_witness :
    is_html_payload [] [116, 101, 120, 116, 47, 72, 84, 77, 76] = true :=
  (is_html_payload_spec [] [116, 101, 120, 116, 47, 72, 84, 77, 76]).1 (by decide)

theorem count_dedupNonemptyLinks (link : String) :
    ∀ (items : List RawItem) (seen : List String),
      ((dedupNonemptyLinks seen items).map RawItem.link).count link ≤
        if seen.contains link then 0 else 1 := by
  intro items
  induction items with
  | nil => intro seen; simp [dedupNonemptyLinks]
  | cons it rest ih =>
    intro seen
    unfold dedupNonemptyLinks
    by_cases hcond : (it.link != "" && !seen.contains it.link) = true
    · rw [if_pos hcond]
      rw [Bool.and_eq_true] at hcond
      have hseen : seen.contains it.link = false := by simpa using hcond.2
      have hrec := ih (it.link :: seen)
      simp only [List.map_cons, List.count_cons]
      by_cases heq : it.link = link
      · subst heq
        have hcontains : (it.link :: seen).contains it.link = true := by
          simp [List.contains_cons]
        rw [hcontains] at hrec
        have hrec0 : ((dedupNonemptyLinks (it.link :: seen) rest).map RawItem.link).count it.link ≤ 0 := by
          simpa using hrec
        have hzero : ((dedupNonemptyLinks (it.link :: seen) rest).map RawItem.link).count it.link = 0 :=
          Nat.le_zero.1 hrec0
        have hmem : it.link ∉ seen := by simpa using hseen
        simp [hseen, hzero, hmem]
      · have hbe : (it.link == link) = false := beq_eq_false_iff_ne.2 heq
        have hcontains : (it.link :: seen).contains link = seen.contains link := by
          rw [List.contains_cons, beq_eq_false_iff_ne.2 fun e => heq e.symm, Bool.false_or]
        rw [hcontains] at hrec
        simpa [hbe] using hrec
    · rw [if_neg hcond]
      exact ih seen

theorem count_dedupLinks (link : String) :
    ∀ (items : List RawItem) (seen : List String),
      ((dedupLinks seen items).map RawItem.link).count link ≤
        if seen.contains link then 0 else 1 := by
  intro items
  induction items with
  | nil => intro seen; simp [dedupLinks]
  | cons it rest ih =>
    intro seen
    unfold dedupLinks
    by_cases hseen : seen.contains it.link = true
    · rw [if_pos hseen]
      exact ih seen
    · rw [if_neg hseen]
      have hrec := ih (it.link :: seen)
      simp only [List.map_cons, List.count_cons]
      by_cases heq : it.link = link
      · subst heq
        have hcontains : (it.link :: seen).contains it.link = true := by
          simp [List.contains_cons]
        rw [hcontains] at hrec
        have hrec0 : ((dedupLinks (it.link :: seen) rest).map RawItem.link).count it.link ≤ 0 := by
          simpa using hrec
        have hs : seen.contains it.link = false := by
          cases hx : seen.contains it.link
          · rfl
          · exact absurd hx hseen
        have hzero : ((dedupLinks (it.link :: seen) rest).map RawItem.link).count it.link = 0 :=
          Nat.le_zero.1 hrec0
        have hmem : it.link ∉ seen := by simpa using hs
        simp [hs, hzero, hmem]
      · have hbe : (it.link == link) = false := beq_eq_false_iff_ne.2 heq
        have hcontains : (it.link :: seen).contains link = seen.contains link := by
          rw [List.contains_cons, beq_eq_false_iff_ne.2 fun e => heq e.symm, Bool.false_or]
        rw [hcontains] at hrec
        simpa [hbe] using hrec

/-- Claim C9: the lists returned by parse_jsonld_posts and by
parse_archive_links are deduplicated by link within the extractor: any
nonempty link value occurs at most once in each returned list, whatever
item lists the HTML walks produce. -/
theorem extractor_dedup_by_link (items : List RawItem) (link : String) (h : link ≠ "") :
    ((parse_jsonld_posts items).map RawItem.link).count link ≤ 1 ∧
      ((parse_archive_links items).map RawItem.link).count link ≤ 1 := by
  constructor
  · simpa using count_dedupNonemptyLinks link items []
  · simpa using count_dedupLinks link items []

/-- Witness for claim C9 on a duplicate-link item list. -/
theorem extractor_dedup_by_link_witness :
    ((parse_jsonld_posts [⟨"a", "https://x/p/a", "", ""⟩, ⟨"b", "https://x/p/a", "", ""⟩]).map
          RawItem.link).count "https://x/p/a" ≤ 1 ∧
      ((parse_archive_links [⟨"a", "https://x/p/a", "", ""⟩, ⟨"b", "https://x/p/a", "", ""⟩]).map
          RawItem.link).count "https://x/p/a" ≤ 1 :=
  extractor_dedup_by_link [⟨"a", "https://x/p/a", "", ""⟩, ⟨"b", "https://x/p/a", "", ""⟩]
    "https://x/p/a" (by decide)

/-- Counterexample to claim C4: the retry delay does not increase across
attempts: it is a fixed 1.2 second base plus fresh jitter, so a large
first jitter followed by a small one gives a decreasing delay sequence. -/
theorem http_get_delay_not_increasing_cex :
    (http_get (fun _ => 403) (fun k => if k = 0 then 9 / 10 else 0) "https://example.com/feed").2.1 =
        [6 / 5 + 9 / 10, 6 / 5 + 0, 6 / 5 + 0] ∧
      ¬ List.Sorted (· ≤ ·)
          (http_get (fun _ => 403) (fun k => if k = 0 then 9 / 10 else 0)
              "https://example.com/feed").2.1 := by
  have h :
      (http_get (fun _ => 403) (fun k => if k = 0 then 9 / 10 else 0)
            "https://example.com/feed").2.1 =
        [6 / 5 + 9 / 10, 6 / 5 + 0, 6 / 5 + 0] := by
    simp [http_get, http_get_aux, retryStatus]
  refine ⟨h, ?_⟩
  rw [h]
  intro hs
  have hle := (List.sorted_cons.1 hs).1 (6 / 5 + 0) (by simp)
  norm_num at hle

/-- Claim C4 (amended): http_get makes at most 3 requests; it returns
immediately on a 200 first response with no sleeps; a success at attempt
i means status 200 there and transient statuses (403 or 429) on every
earlier attempt; every attempt before the last got a transient status, so
any other non-200 status stops the loop immediately (made explicit for
the first response); after three transient responses it fails carrying
the last status and the URL in the error, and every failure error carries
the URL and the status of the last request; each sleep is the fixed base
1.2 seconds plus the jitter of its attempt (not an increasing delay). -/
theorem http_get_retry_policy (resp : Nat → Nat) (jitter : Nat → ℚ) (url : String) :
    (http_get resp jitter url).2.2 ≤ 3 ∧
      (resp 0 = 200 → http_get resp jitter url = (Except.ok 0, [], 1)) ∧
      (∀ i, (http_get resp jitter url).1 = Except.ok i → resp i = 200) ∧
      (∀ i, i + 1 < (http_get resp jitter url).2.2 → retryStatus (resp i) = true) ∧
      (∀ f, (http_get resp jitter url).1 = Except.error f →
        f.url = url ∧ f.lastStatus = some (resp ((http_get resp jitter url).2.2 - 1))) ∧
      (resp 0 ≠ 200 → retryStatus (resp 0) = false →
        http_get resp jitter url = (Except.error ⟨some (resp 0), url⟩, [], 1)) ∧
      (retryStatus (resp 0) = true → retryStatus (resp 1) = true → retryStatus (resp 2) = true →
        http_get resp jitter url =
          (Except.error ⟨some (resp 2), url⟩,
            [6 / 5 + jitter 0, 6 / 5 + jitter 1, 6 / 5 + jitter 2], 3)) ∧
      (∀ q ∈ (http_get resp jitter url).2.1, ∃ k, k < 3 ∧ q = 6 / 5 + jitter k) := by
  by_cases h0 : resp 0 = 200
  · have hval : http_get resp jitter url = (Except.ok 0, [], 1) := by
      simp [http_get, http_get_aux, h0]
    have hr0 : retryStatus (resp 0) = false := by simp [retryStatus, h0]
    rw [hval]
    refine ⟨by norm_num, fun _ => rfl, ?_, ?_, ?_, ?_, ?_, ?_⟩
    · intro i hi
      injection hi with hi
      subst hi
      exact h0
    · intro i hi
      have hx : i + 1 < 1 := by simpa using hi
      omega
    · intro f hf
      simp at hf
    · intro hne _
      exact absurd h0 hne
    · intro ha _ _
      rw [ha] at hr0
      cases hr0
    · intro q hq
      simp at hq
  · by_cases r0 : retryStatus (resp 0) = true
    · by_cases h1 : resp 1 = 200
      · have hval : http_get resp jitter url = (Except.ok 1, [6 / 5 + jitter 0], 2) := by
          simp [http_get, http_get_aux, h0, r0, h1]
        have hr1 : retryStatus (resp 1) = false := by simp [retryStatus, h1]
        rw [hval]
        refine ⟨by norm_num, fun h => absurd h h0, ?_, ?_, ?_, ?_, ?_, ?_⟩
        · intro i hi
          injection hi with hi
          subst hi
          exact h1
        · intro i hi
          have hx : i + 1 < 2 := by simpa using hi
          have : i = 0 := by omega
          subst this
          exact r0
        · intro f hf
          simp at hf
        · intro _ hr
          rw [r0] at hr
          cases hr
        · intro _ hb _
          rw [hb] at hr1
          cases hr1
        · intro q hq
          simp only [List.mem_singleton] at hq
          exact ⟨0, by norm_num, hq⟩
      · by_cases r1 : retryStatus (resp 1) = true
        · by_cases h2 : resp 2 = 200
          · have hval :
                http_get resp jitter url =
                  (Except.ok 2, [6 / 5 + jitter 0, 6 / 5 + jitter 1], 3) := by
              simp [http_get, http_get_aux, h0, r0, h1, r1, h2]
            have hr2 : retryStatus (resp 2) = false := by simp [retryStatus, h2]
            rw [hval]
            refine ⟨by norm_num, fun h => absurd h h0, ?_, ?_, ?_, ?_, ?_, ?_⟩
            · intro i hi
              injection hi with hi
              subst hi
              exact h2
            · intro i hi
              have hx : i + 1 < 3 := by simpa using hi
              have : i = 0 ∨ i = 1 := by omega
              rcases this with rfl | rfl
              · exact r0
              · exact r1
            · intro f hf
              simp at hf
            · intro _ hr
              rw [r0] at hr
              cases hr
            · intro _ _ hc
              rw [hc] at hr2
              cases hr2
            · intro q hq
              simp only [List.mem_cons, List.mem_singleton, List.not_mem_nil, or_false] at hq
              rcases hq with hq | hq
              · exact ⟨0, by norm_num, hq⟩
              · exact ⟨1, by norm_num, hq⟩
          · by_cases r2 : retryStatus (resp 2) = true
            · have hval :
                  http_get resp jitter url =
                    (Except.error ⟨some (resp 2), url⟩,
                      [6 / 5 + jitter 0, 6 / 5 + jitter 1, 6 / 5 + jitter 2], 3) := by
                simp [http_get, http_get_aux, h0, r0, h1, r1, h2, r2]
              rw [hval]
              refine ⟨by norm_num, fun h => absurd h h0, ?_, ?_, ?_, ?_, fun _ _ _ => rfl, ?_⟩
              · intro i hi
                simp at hi
              · intro i hi
                have hx : i + 1 < 3 := by simpa using hi
                have : i = 0 ∨ i = 1 := by omega
                rcases this with rfl | rfl
                · exact r0
                · exact r1
              · intro f hf
                injection hf with hf
                subst hf
                exact ⟨rfl, rfl⟩
              · intro _ hb
                rw [r0] at hb
                cases hb
              · intro q hq
                simp only [List.mem_cons, List.mem_singleton, List.not_mem_nil, or_false] at hq
                rcases hq with hq | hq | hq
                · exact ⟨0, by norm_num, hq⟩
                · exact ⟨1, by norm_num, hq⟩
                · exact ⟨2, by norm_num, hq⟩
            · have hval :
                  http_get resp jitter url =
                    (Except.error ⟨some (resp 2), url⟩,
                      [6 / 5 + jitter 0, 6 / 5 + jitter 1], 3) := by
                simp [http_get, http_get_aux, h0, r0, h1, r1, h2, r2]
              rw [hval]
              refine ⟨by norm_num, fun h => absurd h h0, ?_, ?_, ?_, ?_, ?_, ?_⟩
              · intro i hi
                simp at hi
              · intro i hi
                have hx : i + 1 < 3 := by simpa using hi
                have : i = 0 ∨ i = 1 := by omega
                rcases this with rfl | rfl
                · exact r0
                · exact r1
              · intro f hf
                injection hf with hf
                subst hf
                exact ⟨rfl, rfl⟩
              · intro _ hb
                rw [r0] at hb
                cases hb
              · intro _ _ hc
                exact absurd hc r2
              · intro q hq
                simp only [List.mem_cons, List.mem_singleton, List.not_mem_nil, or_false] at hq
                rcases hq with hq | hq
                · exact ⟨0, by norm_num, hq⟩
                · exact ⟨1, by norm_num, hq⟩
        · have hval :
              http_get resp jitter url =
                (Except.error ⟨some (resp 1), url⟩, [6 / 5 + jitter 0], 2) := by
            simp [http_get, http_get_aux, h0, r0, h1, r1]
          rw [hval]
          refine ⟨by norm_num, fun h => absurd h h0, ?_, ?_, ?_, ?_, ?_, ?_⟩
          · intro i hi
            simp at hi
          · intro i hi
            have hx : i + 1 < 2 := by simpa using hi
            have : i = 0 := by omega
            subst this
            exact r0
          · intro f hf
            injection hf with hf
            subst hf
            exact ⟨rfl, rfl⟩
          · intro _ hb
            rw [r0] at hb
            cases hb
          · intro _ hb _
            exact absurd hb r1
          · intro q hq
            simp only [List.mem_singleton] at hq
            exact ⟨0, by norm_num, hq⟩
    · have hval : http_get resp jitter url = (Except.error ⟨some (resp 0), url⟩, [], 1) := by
        simp [http_get, http_get_aux, h0, r0]
      rw [hval]
      refine ⟨by norm_num, fun h => absurd h h0, ?_, ?_, ?_, fun _ _ => rfl, ?_, ?_⟩
      · intro i hi
        simp at hi
      · intro i hi
        have hx : i + 1 < 1 := by simpa using hi
        omega
      · intro f hf
        injection hf with hf
        subst hf
        exact ⟨rfl, rfl⟩
      · intro ha _ _
        exact absurd ha r0
      · intro q hq
        simp at hq

/-- Witness for the amended claim C4: a constant 200 responder succeeds
immediately with one request and no sleeps. -/
theorem http_get_retry_policy_witness :
    http_get (fun _ => 200) (fun _ => 0) "https://example.com/feed" = (Except.ok 0, [], 1) :=
  (http_get_retry_policy (fun _ => 200) (fun _ => 0) "https://example.com/feed").2.1 rfl

theorem discoverFeed_eq_none_iff (links : List LinkEl) (base : String) :
    discoverFeed links base = none ↔ ∀ l ∈ links, feedLinkMatches l = false := by
  induction links with
  | nil => simp [discoverFeed]
  | cons l rest ih =>
    by_cases hm : feedLinkMatches l = true
    · simp [discoverFeed, hm]
    · rw [Bool.not_eq_true] at hm
      simp [discoverFeed, hm, ih]

theorem discoverFeed_first_match (links : List LinkEl) (base : String) :
    ∀ l, links.find? feedLinkMatches = some l →
      discoverFeed links base = some (resolveAgainst base l.href) := by
  induction links with
  | nil => intro l h; simp at h
  | cons x rest ih =>
    intro l h
    by_cases hm : feedLinkMatches x = true
    · rw [List.find?_cons_of_pos _ hm] at h
      injection h with h
      subst h
      simp [discoverFeed, hm]
    · rw [List.find?_cons_of_neg _ hm] at h
      rw [Bool.not_eq_true] at hm
      simpa [discoverFeed, hm] using ih l h

/-- Claim C6 (spec-modelled, the Feed Discoverer and the state machine of
sections 4.4 and 4.8 have no counterpart in src): discoverFeed returns
nothing exactly when no link element has rel containing alternate and a
type containing rss, atom, or ending in xml; otherwise it resolves the
href of the first matching element against the base URL; and when the
direct fetch came back as HTML whose discovered feed link round-trips as
a valid feed, the cascade ends in Done with those entries after the
TryDiscoveredFeed state, never reaching the HTML-extractor state. -/
theorem feed_discovery_spec (links : List LinkEl) (env : OrchEnv) (u : String)
    (es : List Entry) :
    (discoverFeed links env.baseUrl = none ↔ ∀ l ∈ links, feedLinkMatches l = false) ∧
      (∀ l, links.find? feedLinkMatches = some l →
        discoverFeed links env.baseUrl = some (resolveAgainst env.baseUrl l.href)) ∧
      (env.direct = DirectResult.htmlPage links →
        discoverFeed links env.baseUrl = some u →
        env.roundTrip u = some es →
        runCascade env = (RunOutcome.done es, [Stage.tryDirectFeed, Stage.tryDiscoveredFeed]) ∧
          Stage.tryArchiveDomScrape ∉ (runCascade env).2) := by
  refine ⟨discoverFeed_eq_none_iff links env.baseUrl,
    discoverFeed_first_match links env.baseUrl, fun hd hdisc hrt => ?_⟩
  have hrun :
      runCascade env = (RunOutcome.done es, [Stage.tryDirectFeed, Stage.tryDiscoveredFeed]) := by
    simp [runCascade, hd, discoveredStage, hdisc, hrt]
  refine ⟨hrun, ?_⟩
  rw [hrun]
  simp

/-- Witness for claim C6: a block page carrying one alternate RSS link
whose resolved URL round-trips to a one-entry feed ends the cascade at
the discovery state. -/
theorem feed_discovery_spec_witness :
    runCascade
        ⟨DirectResult.htmlPage [⟨"alternate", "application/rss+xml", "/feed"⟩],
          "https://pub.example",
          fun v => if v = "https://pub.example/feed" then some [{}] else none,
          true, [], [], []⟩ =
        (RunOutcome.done [{}], [Stage.tryDirectFeed, Stage.tryDiscoveredFeed]) ∧
      Stage.tryArchiveDomScrape ∉
        (runCascade
            ⟨DirectResult.htmlPage [⟨"alternate", "application/rss+xml", "/feed"⟩],
              "https://pub.example",
              fun v => if v = "https://pub.example/feed" then some [{}] else none,
              true, [], [], []⟩).2 :=
  (feed_discovery_spec [⟨"alternate", "application/rss+xml", "/feed"⟩]
      ⟨DirectResult.htmlPage [⟨"alternate", "application/rss+xml", "/feed"⟩],
        "https://pub.example",
        fun v => if v = "https://pub.example/feed" then some [{}] else none,
        true, [], [], []⟩
      "https://pub.example/feed" [{}]).2.2 rfl (by decide) (by simp)

end Fetch
